import Mathlib

/-!
Verification of the racoons schema-inference and experiment-orchestration core.

The embedding models pandas dataframes as association lists of named, typed
columns.  Machine floats never matter to the verified properties (only float
DTYPES do), so float cells are carried as rationals.  Python exceptions are
modelled by an error type threaded through Except.
-/

namespace Racoons

/-- Storage dtypes that occur in the racoons data flow.  Raw frames read from
csv or xlsx carry int64, float64, bool or object columns; coercion can in
addition produce category columns. -/
inductive Dtype
  | int64
  | float64
  | bool
  | category
  | object
deriving DecidableEq, Repr

/-- One cell of a column.  Floats are represented as rationals: no verified
property depends on float rounding, only on dtype tags and on exact values
produced by integer-rank coercion. -/
inductive Value
  | int (i : Int)
  | float (q : Rat)
  | bool (b : Bool)
  | str (s : String)
deriving DecidableEq, Repr

/-- A pandas column: a dtype tag plus the stored cells. -/
structure Column where
  dtype : Dtype
  values : List Value
deriving DecidableEq, Repr

/-- A pandas dataframe: named columns in frame order. -/
abbrev Frame := List (String × Column)

/-- One registry entry as parsed by DataSet._read_scale_levels: the raw
scale-level string and, when present, the whitespace-split level order. -/
structure ScaleDetails where
  scale_level : String
  level_order : Option (List String)
deriving DecidableEq, Repr

/-- The scale-level registry (Python dict from column name to details),
kept in insertion order. -/
abbrev Registry := List (String × ScaleDetails)

/-- Python exceptions and exits that the modelled code can raise.
schemaMismatch stands for the uncaught ValueError of list.index on a label
missing from level_order, and for the AttributeError of None.index when an
ordinal entry has no level order: the two hard failures the spec calls
SchemaMismatch.  unsupportedFileFormat is the error the SPEC names for bad
dataset extensions; no code path of the source produces it. -/
inductive Err
  | systemExit
  | schemaMismatch
  | attributeError
  | keyError
  | valueError
  | unsupportedFileFormat
deriving DecidableEq, Repr

/-- Mapping over cells, stopping at the first failing cell as a pandas
apply or astype call would. -/
def mapE (f : Value → Except Err Value) : List Value → Except Err (List Value)
  | [] => .ok []
  | v :: vs =>
    match f v, mapE f vs with
    | .ok w, .ok ws => .ok (w :: ws)
    | .error e, _ => .error e
    | .ok _, .error e => .error e

/-- Truncation toward zero, the numpy float-to-int64 cast. -/
def ratTrunc (q : Rat) : Int :=
  if 0 ≤ q then q.floor else -((-q).floor)

/-- One cell of astype(float).  Numeric strings are parsed like pandas does;
the model only parses integer literals, which is all the verified flows need. -/
def valueToFloat : Value → Except Err Value
  | .int i => .ok (.float (i : Rat))
  | .float q => .ok (.float q)
  | .bool b => .ok (.float (if b then 1 else 0))
  | .str s =>
    match s.toInt? with
    | some i => .ok (.float (i : Rat))
    | none => .error .valueError

/-- One cell of astype(int64). -/
def valueToInt64 : Value → Except Err Value
  | .int i => .ok (.int i)
  | .float q => .ok (.int (ratTrunc q))
  | .bool b => .ok (.int (if b then 1 else 0))
  | .str s =>
    match s.toInt? with
    | some i => .ok (.int i)
    | none => .error .valueError

/-- Column-wide astype(float): float64 dtype, every cell converted. -/
def astypeFloat (c : Column) : Except Err Column :=
  match mapE valueToFloat c.values with
  | .ok vs => .ok ⟨.float64, vs⟩
  | .error e => .error e

/-- Column-wide astype(int64): int64 dtype, every cell converted. -/
def astypeInt64 (c : Column) : Except Err Column :=
  match mapE valueToInt64 c.values with
  | .ok vs => .ok ⟨.int64, vs⟩
  | .error e => .error e

/-- Test modelling pd.api.types.is_numeric_dtype on the dtypes in scope
(bool counts as numeric in pandas). -/
def isNumericDtype : Dtype → Bool
  | .int64 => true
  | .float64 => true
  | .bool => true
  | _ => false

/-- The ordinal rank lookup level_order.index(x) of
DataSet._apply_scale_levels.  A missing level order (None.index) and a cell
that is not a label of the declared order both raise hard errors, modelled
uniformly as schemaMismatch. -/
def pyIndex (lo : Option (List String)) (v : Value) : Except Err Value :=
  match lo with
  | none => .error .schemaMismatch
  | some l =>
    match v with
    | .str s =>
      match l.findIdx? (fun x => x == s) with
      | some i => .ok (.int i)
      | none => .error .schemaMismatch
    | _ => .error .schemaMismatch

/-- Per-column body of DataSet._apply_scale_levels: numerical columns are
cast to float, ordinal columns are rank-looked-up when not already numeric
and then cast to int64, categorical columns get the category dtype, and any
other scale-level string leaves the column unchanged. -/
def coerceColumn (d : ScaleDetails) (c : Column) : Except Err Column :=
  if d.scale_level = "numerical" then
    astypeFloat c
  else if d.scale_level = "ordinal" then
    if isNumericDtype c.dtype then
      astypeInt64 c
    else
      match mapE (pyIndex d.level_order) c.values with
      | .ok rs => astypeInt64 ⟨c.dtype, rs⟩
      | .error e => .error e
  else if d.scale_level = "categorical" then
    .ok ⟨.category, c.values⟩
  else
    .ok c

/-- Lookup of df[name], first matching column. -/
def lookupCol (df : Frame) (k : String) : Option Column :=
  (df.find? (fun e => e.1 == k)).map (fun e => e.2)

/-- Assignment df[name] = c, replacing the named column in place. -/
def setCol (df : Frame) (k : String) (c : Column) : Frame :=
  df.map (fun e => if e.1 = k then (k, c) else e)

/-- One iteration of the registry loop of DataSet._apply_scale_levels:
entries whose column is not among the requested target or feature columns
are skipped; df[column] on a missing column raises KeyError. -/
def applyEntry (featureCols targetCols : List String) (df : Frame)
    (e : String × ScaleDetails) : Except Err Frame :=
  if e.1 ∈ targetCols ++ featureCols then
    match lookupCol df e.1 with
    | none => .error .keyError
    | some c =>
      match coerceColumn e.2 c with
      | .ok c2 => .ok (setCol df e.1 c2)
      | .error err => .error err
  else
    .ok df

/-- DataSet._apply_scale_levels: fold the registry entries, in insertion
order, over a copy of the raw frame. -/
def applyScaleLevels (featureCols targetCols : List String) :
    Frame → Registry → Except Err Frame
  | df, [] => .ok df
  | df, e :: rest =>
    match applyEntry featureCols targetCols df e with
    | .ok df2 => applyScaleLevels featureCols targetCols df2 rest
    | .error err => .error err

/-! Feature/target selector, racoons/data/utils.py -/

/-- Modelled from the spec: the constant supported_scale_levels lives in
racoons/models/__init__.py, which is not under src; per spec section 4.3 the
supported scale levels are numerical, ordinal and categorical. -/
def supported_scale_levels : List String := ["numerical", "ordinal", "categorical"]

/-- Dtype-based scale-level inference of get_scale_level: float dtype is
numerical, the int64 dtype is ordinal, category dtype is categorical, and
every other dtype (bool and object included) is unsupported. -/
def get_scale_level (d : Dtype) : Option String :=
  if d = .float64 then some "numerical"
  else if d = .int64 then some "ordinal"
  else if d = .category then some "categorical"
  else none

/-- Per-scale-level grouping of the accepted feature columns. -/
structure Groups where
  numerical : List String
  ordinal : List String
  categorical : List String
deriving DecidableEq, Repr

/-- The feature loop of features_and_targets_from_dataframe: keeps the
features whose inferred scale level is supported, grouping them by level in
request order; df[col] on a missing column raises KeyError. -/
def classifyFeatures (df : Frame) : List String → Except Err (List String × Groups)
  | [] => .ok ([], ⟨[], [], []⟩)
  | c :: cs =>
    match lookupCol df c with
    | none => .error .keyError
    | some col =>
      match classifyFeatures df cs with
      | .error e => .error e
      | .ok (sel, g) =>
        match get_scale_level col.dtype with
        | some s =>
          if s ∈ supported_scale_levels then
            .ok (c :: sel,
              if s = "numerical" then { g with numerical := c :: g.numerical }
              else if s = "ordinal" then { g with ordinal := c :: g.ordinal }
              else if s = "categorical" then { g with categorical := c :: g.categorical }
              else g)
          else .ok (sel, g)
        | none => .ok (sel, g)

/-- The target loop of features_and_targets_from_dataframe: a target is kept
exactly when its dtype is bool or int64. -/
def selectTargets (df : Frame) : List String → Except Err (List String)
  | [] => .ok []
  | c :: cs =>
    match lookupCol df c with
    | none => .error .keyError
    | some col =>
      match selectTargets df cs with
      | .error e => .error e
      | .ok sel =>
        .ok (if col.dtype = .bool || col.dtype = .int64 then c :: sel else sel)

/-- Decision of the target loop for a single column, for stating theorems. -/
def acceptsTarget (df : Frame) (c : String) : Bool :=
  match lookupCol df c with
  | some col => col.dtype = .bool || col.dtype = .int64
  | none => false

/-- Column slice df.loc[:, cols] in the requested order. -/
def sliceCols (df : Frame) : List String → Except Err Frame
  | [] => .ok []
  | c :: cs =>
    match lookupCol df c with
    | none => .error .keyError
    | some col =>
      match sliceCols df cs with
      | .ok r => .ok ((c, col) :: r)
      | .error e => .error e

/-- features_and_targets_from_dataframe: classify the requested features,
filter the requested targets, and return the feature frame, the target frame
and the scale-level groups, all in request order. -/
def featuresAndTargets (df : Frame) (featureCols targetCols : List String) :
    Except Err (Frame × Frame × Groups) :=
  match classifyFeatures df featureCols with
  | .error e => .error e
  | .ok (fsel, g) =>
    match selectTargets df targetCols with
    | .error e => .error e
    | .ok tsel =>
      match sliceCols df fsel, sliceCols df tsel with
      | .ok fFrame, .ok tFrame => .ok (fFrame, tFrame, g)
      | .error e, _ => .error e
      | _, .error e => .error e

/-! Scale-level registry side-car file, racoons/data/utils.py and
racoons/data/dataset.py -/

/-- One row of the scale_levels.csv lookup file: column name, scale-level
string and the optional whitespace-separated level-order string. -/
structure TemplateRow where
  column : String
  scaleLevel : String
  levelOrder : Option String
deriving DecidableEq, Repr

/-- Template pre-fill rule of create_scale_level_template: string, object or
bool dtypes give categorical, numeric dtypes give numerical, anything else
the sentinel.  Raw frames never carry the category dtype, which therefore
falls to the sentinel branch. -/
def templateLevel : Dtype → String
  | .object => "categorical"
  | .bool => "categorical"
  | .int64 => "numerical"
  | .float64 => "numerical"
  | .category => "provide scale level"

/-- create_scale_level_template: the level strings are collected in FRAME
column order over the requested columns, while the Column field lists the
requested columns in REQUEST order; a length mismatch (a requested column
absent from the frame) makes the DataFrame constructor raise. -/
def create_scale_level_template (df : Frame) (columnsToUse : List String) :
    Option (List TemplateRow) :=
  let cols := if columnsToUse.isEmpty then df.map Prod.fst else columnsToUse
  let dtypes := (df.filter (fun e => decide (e.1 ∈ cols))).map
    (fun e => templateLevel e.2.dtype)
  if dtypes.length = cols.length then
    some (List.zipWith (fun n lvl => ⟨n, lvl, none⟩) cols dtypes)
  else
    none

/-- Details parsed from one file row by DataSet._read_scale_levels: a
present level-order cell is split on single spaces, an empty cell (a float
NaN to pandas) gives none. -/
def rowDetails (r : TemplateRow) : ScaleDetails :=
  ⟨r.scaleLevel, r.levelOrder.map (fun s => s.splitOn " ")⟩

/-- Python dict insertion: an existing key is updated in place, a new key is
appended. -/
def dictInsert (reg : Registry) (k : String) (v : ScaleDetails) : Registry :=
  if reg.any (fun e => e.1 = k) then
    reg.map (fun e => if e.1 = k then (k, v) else e)
  else
    reg ++ [(k, v)]

/-- The row loop of DataSet._read_scale_levels building the registry dict. -/
def parseScaleLevels (rows : List TemplateRow) : Registry :=
  rows.foldl (fun acc r => dictInsert acc r.column (rowDetails r)) []

/-- DataSet._read_scale_levels with the side-car file state made explicit.
A present file is parsed and left untouched.  An absent file triggers
template creation from the raw frame (AttributeError when the raw frame was
never set) followed by SystemExit; the returned file state is the written
template. -/
def read_scale_levels (file : Option (List TemplateRow)) (raw : Option Frame)
    (cols : List String) : Except Err Registry × Option (List TemplateRow) :=
  match file with
  | some rows => (.ok (parseScaleLevels rows), some rows)
  | none =>
    match raw with
    | none => (.error .attributeError, none)
    | some df =>
      match create_scale_level_template df cols with
      | some t => (.error .systemExit, some t)
      | none => (.error .valueError, none)

/-! DataSet construction, racoons/data/dataset.py -/

/-- DataSet._read_dataframe: a csv or xlsx suffix loads the tabular content;
any other suffix silently leaves the raw-dataframe attribute unset. -/
def readDataframe (suffix : String) (content : Frame) : Option Frame :=
  if suffix = ".csv" then some content
  else if suffix = ".xlsx" then some content
  else none

/-- Python truthiness test of the scale_levels constructor argument: None
and an empty mapping are both falsy. -/
def isFalsy : Option Registry → Bool
  | none => true
  | some [] => true
  | some (_ :: _) => false

/-- Tail of DataSet.__init__ after the registry step: _apply_scale_levels
reads self._raw_dataframe and self.scale_levels (AttributeError when either
was never assigned), then the feature and target views are sliced. -/
def applyAndSlice (raw : Option Frame) (reg : Option Registry)
    (featureCols targetCols : List String) : Except Err (Frame × Frame × Frame) :=
  match raw with
  | none => .error .attributeError
  | some rdf =>
    match reg with
    | none => .error .attributeError
    | some registry =>
      match applyScaleLevels featureCols targetCols rdf registry with
      | .error e => .error e
      | .ok df =>
        match sliceCols df featureCols, sliceCols df targetCols with
        | .ok feats, .ok targs => .ok (df, feats, targs)
        | .error e, _ => .error e
        | _, .error e => .error e

/-- Outcome of one DataSet construction: the result (typed frame, features
view, targets view) or the raised error, plus whether the side-car registry
file was read and whether a template file was written. -/
structure InitOutcome where
  result : Except Err (Frame × Frame × Frame)
  fileRead : Bool
  fileWritten : Bool
deriving Repr

/-- DataSet.__init__ with file effects made explicit: read the dataframe by
suffix, consult the side-car registry file only when the scale_levels
argument is falsy, and apply scale levels.  When scale_levels is truthy the
code never assigns self.scale_levels, so the apply step raises
AttributeError. -/
def datasetInit (suffix : String) (content : Frame)
    (scaleFile : Option (List TemplateRow)) (featureCols targetCols : List String)
    (scaleLevels : Option Registry) : InitOutcome :=
  let raw := readDataframe suffix content
  if isFalsy scaleLevels then
    match read_scale_levels scaleFile raw (featureCols ++ targetCols) with
    | (.ok reg, _) =>
      { result := applyAndSlice raw (some reg) featureCols targetCols
        fileRead := true
        fileWritten := false }
    | (.error e, f) =>
      { result := .error e
        fileRead := scaleFile.isSome
        fileWritten := f.isSome && scaleFile.isNone }
  else
    { result := applyAndSlice raw none featureCols targetCols
      fileRead := false
      fileWritten := false }

/-! Experiment orchestrator, racoons/models/classification.py.  The external
collaborators (model building, cross-validation, plotting, report-row
contents) are spec section 6 external interfaces; the embedding records the
orchestration-relevant events: report-row appends and report rewrites. -/

/-- Observable orchestration events: one appended report row per
target-estimator iteration, and the two whole-report rewrites
(report.xlsx and semicolon-delimited report.csv). -/
inductive Event
  | row (target estimator : String)
  | writeXlsx
  | writeCsv
deriving DecidableEq, Repr

/-- Test for a report-row event. -/
def isRow : Event → Bool
  | .row _ _ => true
  | _ => false

/-- The row events of a trace, in order. -/
def rowEvents (evs : List Event) : List Event :=
  evs.filter isRow

/-- One target of the Strategy A loop: a row per estimator in list order,
then the two report rewrites that close the target iteration. -/
def targetBlock (estimators : List String) (t : String) : List Event :=
  estimators.map (fun e => Event.row t e) ++ [Event.writeXlsx, Event.writeCsv]

/-- Event trace of the Strategy A loops of multivariate_classification:
target-major over the accepted targets, estimator-minor, with per-target
report rewrites and the final end-of-run rewrites. -/
def mvEvents (tnames estimators : List String) : List Event :=
  (tnames.map (targetBlock estimators)).flatten ++ [Event.writeXlsx, Event.writeCsv]

/-- multivariate_classification, Strategy A: select features and targets,
then iterate targets (the columns of the accepted target frame) and
estimators (the caller's list). -/
def multivariate_classification (df : Frame) (featureCols targetCols
    estimators : List String) : Except Err (List Event) :=
  match featuresAndTargets df featureCols targetCols with
  | .error e => .error e
  | .ok (_, tFrame, _) => .ok (mvEvents (tFrame.map Prod.fst) estimators)

/-! Grid-search best-estimator selection, racoons/models/classification.py -/

/-- Stable ascending insertion by mean AUC, the effective behaviour of the
numpy argsort that pandas sort_values runs on the initial-CV frame (numpy
introsort is insertion sort on the short candidate lists in scope, hence
stable). -/
def insertAsc (x : String × Rat) : List (String × Rat) → List (String × Rat)
  | [] => [x]
  | y :: ys => if y.2 ≤ x.2 then y :: insertAsc x ys else x :: y :: ys

/-- Stable ascending sort of the initial-CV rows by mean AUC. -/
def sortAsc (l : List (String × Rat)) : List (String × Rat) :=
  l.foldl (fun acc x => insertAsc x acc) []

/-- The best-estimator pick of grid_search_multivariate_classification:
pandas sort_values(by AUC, descending) reverses the stable ascending
argsort, and iloc[0] takes the head of the reversed order, i.e. the LAST
element of the ascending order. -/
def bestCvEstimator (results : List (String × Rat)) : Option (String × Rat) :=
  (sortAsc results).getLast?

/-- The initial-CV ranking step of Strategy B for one target: one cv_df row
per estimator in caller order carrying its mean AUC, then the sort-based
pick. -/
def gridSearchBest (estimators : List String) (auc : String → Rat) :
    Option (String × Rat) :=
  bestCvEstimator (estimators.map (fun e => (e, auc e)))

/-- Recursive view of the last element of a result list, used to reason
about the head of the reversed sort order. -/
def lastOf : List (String × Rat) → Option (String × Rat)
  | [] => none
  | [x] => some x
  | _ :: y :: ys => lastOf (y :: ys)

/-- Reference characterization of the sort-based pick: the element of
maximal mean AUC, preferring the LAST occurrence on ties. -/
def lastMax : List (String × Rat) → Option (String × Rat)
  | [] => none
  | x :: xs =>
    some (match lastMax xs with
      | none => x
      | some m => if x.2 ≤ m.2 then m else x)

/-- Merge of two optional maxima where the right argument stands for later
list positions and wins ties. -/
def combineMax : Option (String × Rat) → Option (String × Rat) →
    Option (String × Rat)
  | none, b => b
  | some a, none => some a
  | some a, some b => some (if a.2 ≤ b.2 then b else a)

/-- Checkpoint-per-row discipline as claimed for Strategy A: between any two
report-row appends the report is rewritten to both persisted formats. -/
def checkpointedPerRow (evs : List Event) : Prop :=
  ∀ (i j : Nat) (ti ei tj ej : String), i < j →
    evs[i]? = some (Event.row ti ei) → evs[j]? = some (Event.row tj ej) →
    (∃ k, i < k ∧ k < j ∧ evs[k]? = some Event.writeXlsx) ∧
    (∃ k, i < k ∧ k < j ∧ evs[k]? = some Event.writeCsv)

/-- Dtype of a named frame column, for stating per-column properties
(defaults to object on a missing name). -/
def colDtype (df : Frame) (c : String) : Dtype :=
  match lookupCol df c with
  | some col => col.dtype
  | none => .object

/-! Theorems -/

/-- C1: for an ordinal column with declared level order a, b, c whose stored
values are not numeric, applying scale levels maps the value b to integer
rank 1 and leaves the column with integer dtype; a stored value outside the
level order makes the application fail with the hard SchemaMismatch error
instead of producing a NaN or leaving the column unchanged. -/
theorem c1_ordinal_rank_and_mismatch (n a b c s : String) (hab : a ≠ b)
    (hs : s ∉ [a, b, c]) :
    applyScaleLevels [n] [] [(n, ⟨.object, [Value.str b]⟩)]
        [(n, ⟨"ordinal", some [a, b, c]⟩)]
      = .ok [(n, ⟨.int64, [Value.int 1]⟩)]
    ∧ applyScaleLevels [n] [] [(n, ⟨.object, [Value.str s]⟩)]
        [(n, ⟨"ordinal", some [a, b, c]⟩)]
      = .error .schemaMismatch := by
  have hsa : s ≠ a := fun h => hs (by simp [h])
  have hsb : s ≠ b := fun h => hs (by simp [h])
  have hsc : s ≠ c := fun h => hs (by simp [h])
  constructor
  · simp [applyScaleLevels, applyEntry, lookupCol, setCol, coerceColumn, mapE, pyIndex,
      astypeInt64, valueToInt64, isNumericDtype, List.findIdx?, hab, Ne.symm hab]
  · simp [applyScaleLevels, applyEntry, lookupCol, setCol, coerceColumn, mapE, pyIndex,
      astypeInt64, valueToInt64, isNumericDtype, List.findIdx?, Ne.symm hsa, Ne.symm hsb,
      Ne.symm hsc]

/-- C1 witness: concrete ordinal column with level order lo, mid, hi. -/
theorem c1_witness :
    ("lo" ≠ "mid") ∧ ("zz" ∉ ["lo", "mid", "hi"]) ∧
    (applyScaleLevels ["col"] [] [("col", ⟨.object, [Value.str "mid"]⟩)]
        [("col", ⟨"ordinal", some ["lo", "mid", "hi"]⟩)]
      = .ok [("col", ⟨.int64, [Value.int 1]⟩)]
    ∧ applyScaleLevels ["col"] [] [("col", ⟨.object, [Value.str "zz"]⟩)]
        [("col", ⟨"ordinal", some ["lo", "mid", "hi"]⟩)]
      = .error .schemaMismatch) :=
  ⟨by decide, by decide,
    c1_ordinal_rank_and_mismatch "col" "lo" "mid" "hi" "zz" (by decide) (by decide)⟩

/-- C5 counterexample: with one bool, one int64, one float and one category
feature requested, the selector excludes the bool feature (its dtype has no
scale level), so the selected feature list is not the full request: the
claimed zero exclusions is false. -/
theorem c5_selector_counterexample :
    featuresAndTargets
        [("b", ⟨.bool, []⟩), ("i", ⟨.int64, []⟩), ("f", ⟨.float64, []⟩),
          ("c", ⟨.category, []⟩)]
        ["b", "i", "f", "c"] []
      = .ok ([("i", ⟨.int64, []⟩), ("f", ⟨.float64, []⟩), ("c", ⟨.category, []⟩)], [],
          ⟨["f"], ["i"], ["c"]⟩)
    ∧ [("i", (⟨.int64, []⟩ : Column)), ("f", ⟨.float64, []⟩),
        ("c", ⟨.category, []⟩)].map Prod.fst ≠ ["b", "i", "f", "c"] :=
  ⟨rfl, by decide⟩

/-- C5 amended: for one bool-like, one pure-integer, one float and one
categorical feature column (distinct names), the selector returns exactly one
feature in each of the numerical, ordinal and categorical groups (float to
numerical, integer to ordinal, category to categorical) and excludes exactly
one feature, the bool-like one, whose storage type is unsupported. -/
theorem c5_selector_amended (nb ni nf nc : String) (vb vi vf vc : List Value)
    (h1 : nb ≠ ni) (h2 : nb ≠ nf) (h3 : nb ≠ nc)
    (h4 : ni ≠ nf) (h5 : ni ≠ nc) (h6 : nf ≠ nc) :
    featuresAndTargets
        [(nb, ⟨.bool, vb⟩), (ni, ⟨.int64, vi⟩), (nf, ⟨.float64, vf⟩),
          (nc, ⟨.category, vc⟩)]
        [nb, ni, nf, nc] []
      = .ok ([(ni, ⟨.int64, vi⟩), (nf, ⟨.float64, vf⟩), (nc, ⟨.category, vc⟩)], [],
          ⟨[nf], [ni], [nc]⟩) := by
  have b1 : (nb == ni) = false := beq_eq_false_iff_ne.mpr h1
  have b2 : (nb == nf) = false := beq_eq_false_iff_ne.mpr h2
  have b3 : (nb == nc) = false := beq_eq_false_iff_ne.mpr h3
  have b4 : (ni == nf) = false := beq_eq_false_iff_ne.mpr h4
  have b5 : (ni == nc) = false := beq_eq_false_iff_ne.mpr h5
  have b6 : (nf == nc) = false := beq_eq_false_iff_ne.mpr h6
  simp [featuresAndTargets, classifyFeatures, selectTargets, sliceCols, lookupCol,
    get_scale_level, supported_scale_levels, b1, b2, b3, b4, b5, b6]

/-- C5 witness: distinct concrete column names. -/
theorem c5_witness :
    ("b" ≠ "i") ∧ ("b" ≠ "f") ∧ ("b" ≠ "c") ∧ ("i" ≠ "f") ∧ ("i" ≠ "c") ∧ ("f" ≠ "c") ∧
    featuresAndTargets
        [("b", ⟨.bool, []⟩), ("i", ⟨.int64, []⟩), ("f", ⟨.float64, []⟩),
          ("c", ⟨.category, []⟩)]
        ["b", "i", "f", "c"] []
      = .ok ([("i", ⟨.int64, []⟩), ("f", ⟨.float64, []⟩), ("c", ⟨.category, []⟩)], [],
          ⟨["f"], ["i"], ["c"]⟩) :=
  ⟨by decide, by decide, by decide, by decide, by decide, by decide,
    c5_selector_amended "b" "i" "f" "c" [] [] [] [] (by decide) (by decide) (by decide)
      (by decide) (by decide) (by decide)⟩

/-- C7: the racoons DataSet constructor accepts an explicit scale_levels
registry and then, as claimed, neither reads nor creates the side-car file;
but the supplied mapping is never assigned to self.scale_levels, so
_apply_scale_levels raises AttributeError and construction never completes.
The claim describes the clear intent; the code drops the argument. -/
theorem c7_supplied_registry_attribute_error (content : Frame)
    (file : Option (List TemplateRow)) (fc tc : List String) (k : String)
    (d : ScaleDetails) (rest : Registry) :
    datasetInit ".csv" content file fc tc (some ((k, d) :: rest))
      = { result := .error .attributeError, fileRead := false, fileWritten := false } := by
  simp [datasetInit, isFalsy, readDataframe, applyAndSlice]

/-- C8 counterexample: constructing from a path with an unrecognized .txt
extension does not fail at load time with UnsupportedFileFormat; the
side-car registry file is read first (fileRead is true) and the run then
dies with AttributeError on the unset raw dataframe. -/
theorem c8_load_counterexample :
    datasetInit ".txt" [("x", ⟨.float64, []⟩)] (some [⟨"x", "numerical", none⟩])
        ["x"] [] none
      = { result := .error .attributeError, fileRead := true, fileWritten := false }
    ∧ Err.attributeError ≠ Err.unsupportedFileFormat :=
  ⟨rfl, by decide⟩

/-- C8 amended: for any dataset extension other than csv and xlsx the raw
dataframe is silently left unset; construction does not raise any
UnsupportedFileFormat at load time, but proceeds to the registry step and
fails with AttributeError when the unset raw frame is first needed: after
the side-car file has been read when it exists, or during template creation
(before any template is written) when it does not. -/
theorem c8_load_amended (suffix : String) (h1 : suffix ≠ ".csv")
    (h2 : suffix ≠ ".xlsx") (content : Frame) (rows : List TemplateRow)
    (fc tc : List String) :
    datasetInit suffix content (some rows) fc tc none
      = { result := .error .attributeError, fileRead := true, fileWritten := false }
    ∧ datasetInit suffix content none fc tc none
      = { result := .error .attributeError, fileRead := false, fileWritten := false } := by
  have hr : readDataframe suffix content = none := by simp [readDataframe, h1, h2]
  constructor
  · simp [datasetInit, isFalsy, hr, read_scale_levels, applyAndSlice]
  · simp [datasetInit, isFalsy, hr, read_scale_levels]

/-- C8 witness: concrete .txt extension. -/
theorem c8_witness :
    (".txt" ≠ ".csv") ∧ (".txt" ≠ ".xlsx") ∧
    (datasetInit ".txt" [("x", ⟨.float64, []⟩)] (some [⟨"x", "numerical", none⟩])
        ["x"] [] none
      = { result := .error .attributeError, fileRead := true, fileWritten := false }
    ∧ datasetInit ".txt" [("x", ⟨.float64, []⟩)] none ["x"] [] none
      = { result := .error .attributeError, fileRead := false, fileWritten := false }) :=
  ⟨by decide, by decide,
    c8_load_amended ".txt" (by decide) (by decide) [("x", ⟨.float64, []⟩)]
      [⟨"x", "numerical", none⟩] ["x"] []⟩

theorem mvEvents_cons (t : String) (tn est : List String) :
    mvEvents (t :: tn) est = targetBlock est t ++ mvEvents tn est := by
  simp [mvEvents, List.append_assoc]

theorem rowEvents_append (a b : List Event) :
    rowEvents (a ++ b) = rowEvents a ++ rowEvents b := by
  simp [rowEvents, List.filter_append]

theorem rowEvents_targetBlock (est : List String) (t : String) :
    rowEvents (targetBlock est t) = est.map (fun e => Event.row t e) := by
  simp only [targetBlock, rowEvents, List.filter_append]
  have h2 : List.filter isRow [Event.writeXlsx, Event.writeCsv] = [] := rfl
  rw [h2, List.append_nil]
  induction est with
  | nil => rfl
  | cons e es ih => simp [List.filter_cons, isRow, ih]

theorem rowEvents_mvEvents (est : List String) :
    ∀ tn, rowEvents (mvEvents tn est)
      = (tn.map (fun t => est.map (fun e => Event.row t e))).flatten
  | [] => rfl
  | t :: tn => by
    rw [mvEvents_cons, rowEvents_append, rowEvents_targetBlock,
      rowEvents_mvEvents est tn]
    simp

theorem length_row_product (est : List String) :
    ∀ tn : List String,
      ((tn.map (fun t => est.map (fun e => Event.row t e))).flatten).length
        = tn.length * est.length
  | [] => by simp
  | t :: tn => by
    simp only [List.map_cons, List.flatten_cons, List.length_append,
      List.length_map, length_row_product est tn, List.length_cons]
    ring

theorem count_targetBlock_xlsx (est : List String) (t : String) :
    (targetBlock est t).count Event.writeXlsx = 1 := by
  have h0 : (est.map (fun e => Event.row t e)).count Event.writeXlsx = 0 := by
    rw [List.count_eq_zero]
    simp
  simp [targetBlock, List.count_append, h0]

theorem count_targetBlock_csv (est : List String) (t : String) :
    (targetBlock est t).count Event.writeCsv = 1 := by
  have h0 : (est.map (fun e => Event.row t e)).count Event.writeCsv = 0 := by
    rw [List.count_eq_zero]
    simp
  simp [targetBlock, List.count_append, h0]

theorem count_mvEvents_xlsx (est : List String) :
    ∀ tn : List String, (mvEvents tn est).count Event.writeXlsx = tn.length + 1
  | [] => rfl
  | t :: tn => by
    rw [mvEvents_cons, List.count_append, count_targetBlock_xlsx,
      count_mvEvents_xlsx est tn]
    simp [Nat.add_comm]

theorem count_mvEvents_csv (est : List String) :
    ∀ tn : List String, (mvEvents tn est).count Event.writeCsv = tn.length + 1
  | [] => rfl
  | t :: tn => by
    rw [mvEvents_cons, List.count_append, count_targetBlock_csv,
      count_mvEvents_csv est tn]
    simp [Nat.add_comm]

/-- C3: under Strategy A with T accepted target columns and E estimator
names, the trace appends exactly T times E report rows, in target-major,
estimator-minor order (the row list is the flattened product of accepted
targets with the caller's estimator list); with zero targets or zero
estimators the run completes with zero report rows and no error. -/
theorem c3_strategyA_rows (df : Frame) (fc tc est : List String) (F T : Frame)
    (G : Groups) (h : featuresAndTargets df fc tc = .ok (F, T, G)) :
    ∃ evs, multivariate_classification df fc tc est = .ok evs
      ∧ rowEvents evs
          = ((T.map Prod.fst).map (fun t => est.map (fun e => Event.row t e))).flatten
      ∧ (rowEvents evs).length = (T.map Prod.fst).length * est.length
      ∧ ((T.map Prod.fst = [] ∨ est = []) → rowEvents evs = []) := by
  refine ⟨mvEvents (T.map Prod.fst) est, ?_, ?_, ?_, ?_⟩
  · simp [multivariate_classification, h]
  · exact rowEvents_mvEvents est (T.map Prod.fst)
  · rw [rowEvents_mvEvents est (T.map Prod.fst)]
    exact length_row_product est (T.map Prod.fst)
  · intro hz
    have hlen : (rowEvents (mvEvents (T.map Prod.fst) est)).length = 0 := by
      rw [rowEvents_mvEvents est (T.map Prod.fst), length_row_product est (T.map Prod.fst)]
      rcases hz with hz | hz <;> simp [hz]
    exact List.eq_nil_of_length_eq_zero hlen

/-- C3 witness: one accepted bool target and two estimators give the two
rows of the single target in estimator order. -/
theorem c3_witness :
    featuresAndTargets [("t", ⟨.bool, []⟩), ("x", ⟨.float64, []⟩)] ["x"] ["t"]
      = .ok ([("x", ⟨.float64, []⟩)], [("t", ⟨.bool, []⟩)], ⟨["x"], [], []⟩)
    ∧ ∃ evs,
        multivariate_classification [("t", ⟨.bool, []⟩), ("x", ⟨.float64, []⟩)]
            ["x"] ["t"] ["e1", "e2"]
          = .ok evs
        ∧ rowEvents evs
            = (([("t", (⟨.bool, []⟩ : Column))].map Prod.fst).map
                (fun t => ["e1", "e2"].map (fun e => Event.row t e))).flatten
        ∧ (rowEvents evs).length
            = ([("t", (⟨.bool, []⟩ : Column))].map Prod.fst).length * ["e1", "e2"].length
        ∧ (([("t", (⟨.bool, []⟩ : Column))].map Prod.fst = []
              ∨ ["e1", "e2"] = ([] : List String)) → rowEvents evs = []) :=
  ⟨rfl,
    c3_strategyA_rows [("t", ⟨.bool, []⟩), ("x", ⟨.float64, []⟩)] ["x"] ["t"]
      ["e1", "e2"] [("x", ⟨.float64, []⟩)] [("t", ⟨.bool, []⟩)] ⟨["x"], [], []⟩ rfl⟩

/-- C4 counterexample: with one accepted target and two estimators the trace
contains two adjacent report-row events with no report write between them,
so the report is NOT persisted after every completed row; snapshots can
trail by a whole target's estimator block. -/
theorem c4_checkpoint_counterexample :
    multivariate_classification [("t", ⟨.bool, []⟩), ("x", ⟨.float64, []⟩)]
        ["x"] ["t"] ["e1", "e2"]
      = .ok [Event.row "t" "e1", Event.row "t" "e2", Event.writeXlsx, Event.writeCsv,
          Event.writeXlsx, Event.writeCsv]
    ∧ ¬ checkpointedPerRow [Event.row "t" "e1", Event.row "t" "e2", Event.writeXlsx,
        Event.writeCsv, Event.writeXlsx, Event.writeCsv] := by
  refine ⟨rfl, fun h => ?_⟩
  obtain ⟨⟨k, hk1, hk2, _⟩, _⟩ := h 0 1 "t" "e1" "t" "e2" (by decide) rfl rfl
  omega

/-- C4 amended: during one Strategy A call the report table is rewritten to
both persisted formats once after each accepted target's full estimator
block and once more at the end of the run (T plus 1 writes of each format,
the trace ending with the final pair), so on-disk snapshots trail the
in-memory table by at most the current target's rows. -/
theorem c4_checkpoint_amended (df : Frame) (fc tc est : List String) (F T : Frame)
    (G : Groups) (h : featuresAndTargets df fc tc = .ok (F, T, G)) :
    ∃ evs, multivariate_classification df fc tc est = .ok evs
      ∧ evs = ((T.map Prod.fst).map (targetBlock est)).flatten
          ++ [Event.writeXlsx, Event.writeCsv]
      ∧ evs.count Event.writeXlsx = (T.map Prod.fst).length + 1
      ∧ evs.count Event.writeCsv = (T.map Prod.fst).length + 1 := by
  refine ⟨mvEvents (T.map Prod.fst) est, ?_, rfl, ?_, ?_⟩
  · simp [multivariate_classification, h]
  · exact count_mvEvents_xlsx est (T.map Prod.fst)
  · exact count_mvEvents_csv est (T.map Prod.fst)

/-- C4 witness: the amended checkpoint shape at one target, two estimators. -/
theorem c4_witness :
    featuresAndTargets [("t", ⟨.bool, []⟩), ("x", ⟨.float64, []⟩)] ["x"] ["t"]
      = .ok ([("x", ⟨.float64, []⟩)], [("t", ⟨.bool, []⟩)], ⟨["x"], [], []⟩)
    ∧ ∃ evs,
        multivariate_classification [("t", ⟨.bool, []⟩), ("x", ⟨.float64, []⟩)]
            ["x"] ["t"] ["e1", "e2"]
          = .ok evs
        ∧ evs = (([("t", (⟨.bool, []⟩ : Column))].map Prod.fst).map
              (targetBlock ["e1", "e2"])).flatten
            ++ [Event.writeXlsx, Event.writeCsv]
        ∧ evs.count Event.writeXlsx
            = ([("t", (⟨.bool, []⟩ : Column))].map Prod.fst).length + 1
        ∧ evs.count Event.writeCsv
            = ([("t", (⟨.bool, []⟩ : Column))].map Prod.fst).length + 1 :=
  ⟨rfl,
    c4_checkpoint_amended [("t", ⟨.bool, []⟩), ("x", ⟨.float64, []⟩)] ["x"] ["t"]
      ["e1", "e2"] [("x", ⟨.float64, []⟩)] [("t", ⟨.bool, []⟩)] ⟨["x"], [], []⟩ rfl⟩

theorem selectTargets_eq_filter (df : Frame) :
    ∀ tc : List String, (∀ c ∈ tc, (lookupCol df c).isSome) →
      selectTargets df tc = .ok (tc.filter (acceptsTarget df))
  | [], _ => rfl
  | c :: cs, h => by
    obtain ⟨col, hcol⟩ := Option.isSome_iff_exists.mp (h c (List.mem_cons_self c cs))
    have ih := selectTargets_eq_filter df cs (fun x hx => h x (List.mem_cons_of_mem c hx))
    have ha : acceptsTarget df c = (decide (col.dtype = .bool) || decide (col.dtype = .int64)) := by
      simp [acceptsTarget, hcol]
    simp only [selectTargets, hcol, ih, List.filter_cons, ha]

theorem classifyFeatures_ok (df : Frame) :
    ∀ fc : List String, (∀ c ∈ fc, (lookupCol df c).isSome) →
      ∃ sel g, classifyFeatures df fc = .ok (sel, g) ∧ ∀ c ∈ sel, c ∈ fc
  | [], _ => ⟨[], ⟨[], [], []⟩, rfl, by simp⟩
  | c :: cs, h => by
    obtain ⟨col, hcol⟩ := Option.isSome_iff_exists.mp (h c (List.mem_cons_self c cs))
    obtain ⟨sel, g, hok, hsub⟩ :=
      classifyFeatures_ok df cs (fun x hx => h x (List.mem_cons_of_mem c hx))
    cases hgs : get_scale_level col.dtype with
    | none =>
      refine ⟨sel, g, ?_, fun x hx => List.mem_cons_of_mem c (hsub x hx)⟩
      simp [classifyFeatures, hcol, hok, hgs]
    | some s =>
      by_cases hsup : s ∈ supported_scale_levels
      · refine ⟨c :: sel,
          (if s = "numerical" then { g with numerical := c :: g.numerical }
            else if s = "ordinal" then { g with ordinal := c :: g.ordinal }
            else if s = "categorical" then { g with categorical := c :: g.categorical }
            else g), ?_, ?_⟩
        · simp [classifyFeatures, hcol, hok, hgs, hsup]
        · intro x hx
          rcases List.mem_cons.mp hx with hx | hx
          · exact hx ▸ List.mem_cons_self c cs
          · exact List.mem_cons_of_mem c (hsub x hx)
      · refine ⟨sel, g, ?_, fun x hx => List.mem_cons_of_mem c (hsub x hx)⟩
        simp [classifyFeatures, hcol, hok, hgs, hsup]

theorem sliceCols_ok (df : Frame) :
    ∀ cols : List String, (∀ c ∈ cols, (lookupCol df c).isSome) →
      ∃ F : Frame, sliceCols df cols = .ok F ∧ F.map Prod.fst = cols
  | [], _ => ⟨[], rfl, rfl⟩
  | c :: cs, h => by
    obtain ⟨col, hcol⟩ := Option.isSome_iff_exists.mp (h c (List.mem_cons_self c cs))
    obtain ⟨F, hok, hmap⟩ := sliceCols_ok df cs (fun x hx => h x (List.mem_cons_of_mem c hx))
    exact ⟨(c, col) :: F, by simp [sliceCols, hcol, hok], by simp [hmap]⟩

/-- C6: when every requested column exists, the selector run completes (no
abort), and a requested target column appears in the returned target frame
exactly when its storage dtype is bool or int64; in particular a target of
string labels is excluded and the targets frame does not contain it. -/
theorem c6_target_filter (df : Frame) (fc tc : List String)
    (hf : ∀ c ∈ fc, (lookupCol df c).isSome)
    (ht : ∀ c ∈ tc, (lookupCol df c).isSome) :
    ∃ F T G, featuresAndTargets df fc tc = .ok (F, T, G)
      ∧ T.map Prod.fst = tc.filter (acceptsTarget df)
      ∧ (∀ c, c ∈ T.map Prod.fst ↔ c ∈ tc ∧ acceptsTarget df c = true) := by
  obtain ⟨sel, g, hcf, hsub⟩ := classifyFeatures_ok df fc hf
  have hst := selectTargets_eq_filter df tc ht
  obtain ⟨F, hsf, _⟩ := sliceCols_ok df sel (fun c hc => hf c (hsub c hc))
  obtain ⟨T, hstc, hmap⟩ := sliceCols_ok df (tc.filter (acceptsTarget df))
    (fun c hc => ht c (List.mem_of_mem_filter hc))
  refine ⟨F, T, g, ?_, hmap, ?_⟩
  · simp [featuresAndTargets, hcf, hst, hsf, hstc]
  · intro c
    rw [hmap]
    simp [List.mem_filter]

/-- C6 witness: a bool target is kept, an object (string-label) target is
excluded from the returned target frame, and the run does not abort. -/
theorem c6_witness :
    (∀ c ∈ (["x"] : List String),
      (lookupCol [("t", ⟨.bool, []⟩), ("s", ⟨.object, []⟩), ("x", ⟨.float64, []⟩)] c).isSome)
    ∧ (∀ c ∈ (["t", "s"] : List String),
      (lookupCol [("t", ⟨.bool, []⟩), ("s", ⟨.object, []⟩), ("x", ⟨.float64, []⟩)] c).isSome)
    ∧ ∃ F T G,
        featuresAndTargets [("t", ⟨.bool, []⟩), ("s", ⟨.object, []⟩), ("x", ⟨.float64, []⟩)]
            ["x"] ["t", "s"]
          = .ok (F, T, G)
        ∧ T.map Prod.fst
            = ["t", "s"].filter
                (acceptsTarget [("t", ⟨.bool, []⟩), ("s", ⟨.object, []⟩), ("x", ⟨.float64, []⟩)])
        ∧ (∀ c, c ∈ T.map Prod.fst ↔ c ∈ (["t", "s"] : List String)
            ∧ acceptsTarget [("t", ⟨.bool, []⟩), ("s", ⟨.object, []⟩), ("x", ⟨.float64, []⟩)] c
              = true) :=
  ⟨by decide, by decide,
    c6_target_filter [("t", ⟨.bool, []⟩), ("s", ⟨.object, []⟩), ("x", ⟨.float64, []⟩)]
      ["x"] ["t", "s"] (by decide) (by decide)⟩

theorem lookup_of_mem_nodup :
    ∀ (df : Frame) (e : String × Column), (df.map Prod.fst).Nodup → e ∈ df →
      lookupCol df e.1 = some e.2
  | [], e, _, he => absurd he (List.not_mem_nil e)
  | f :: dfr, e, hnd, he => by
    rcases List.mem_cons.mp he with he | he
    · subst he
      simp [lookupCol]
    · have hmem : e.1 ∈ dfr.map Prod.fst := List.mem_map_of_mem Prod.fst he
      have hne : ¬ (f.1 == e.1) = true := by
        have hf : f.1 ∉ dfr.map Prod.fst := (List.nodup_cons.mp hnd).1
        simp only [beq_iff_eq]
        exact fun h => hf (h ▸ hmem)
      have ih := lookup_of_mem_nodup dfr e (List.nodup_cons.mp hnd).2 he
      have hb : (f.1 == e.1) = false := by simpa using hne
      simp only [lookupCol] at ih ⊢
      rw [List.find?_cons, hb]
      exact ih

theorem zipWith_map_same {α β γ δ : Type} (f : α → β) (g : α → γ) (h : β → γ → δ) :
    ∀ l : List α, List.zipWith h (l.map f) (l.map g) = l.map (fun x => h (f x) (g x))
  | [] => rfl
  | x :: xs => by simp [zipWith_map_same f g h xs]

theorem parse_foldl_nodup :
    ∀ (rows : List TemplateRow) (acc : Registry),
      (rows.map TemplateRow.column).Nodup →
      (∀ r ∈ rows, ∀ e ∈ acc, e.1 ≠ r.column) →
      rows.foldl (fun a r => dictInsert a r.column (rowDetails r)) acc
        = acc ++ rows.map (fun r => (r.column, rowDetails r))
  | [], acc, _, _ => by simp
  | r :: rs, acc, hnd, hfresh => by
    have hany : ¬ (acc.any (fun e => e.1 = r.column)) = true := by
      simp only [List.any_eq_true, decide_eq_true_eq, not_exists]
      intro e he
      exact absurd he.2 (hfresh r (List.mem_cons_self r rs) e he.1)
    have hstep : dictInsert acc r.column (rowDetails r)
        = acc ++ [(r.column, rowDetails r)] := by
      unfold dictInsert
      rw [if_neg hany]
    have hhead : r.column ∉ rs.map TemplateRow.column := (List.nodup_cons.mp hnd).1
    have hfresh2 : ∀ x ∈ rs, ∀ e ∈ acc ++ [(r.column, rowDetails r)], e.1 ≠ x.column := by
      intro x hx e he
      rcases List.mem_append.mp he with he | he
      · exact hfresh x (List.mem_cons_of_mem r hx) e he
      · have heq : e = (r.column, rowDetails r) := by simpa using he
        subst heq
        intro h
        apply hhead
        have h2 : r.column = x.column := h
        rw [h2]
        exact List.mem_map_of_mem TemplateRow.column hx
    have ih := parse_foldl_nodup rs (acc ++ [(r.column, rowDetails r)])
      (List.nodup_cons.mp hnd).2 hfresh2
    calc (r :: rs).foldl (fun a x => dictInsert a x.column (rowDetails x)) acc
        = rs.foldl (fun a x => dictInsert a x.column (rowDetails x))
            (dictInsert acc r.column (rowDetails r)) := rfl
      _ = (acc ++ [(r.column, rowDetails r)])
            ++ rs.map (fun x => (x.column, rowDetails x)) := by rw [hstep]; exact ih
      _ = acc ++ (r :: rs).map (fun x => (x.column, rowDetails x)) := by simp

/-- C2 counterexample: for a frame with columns A (float) then B (string
object) and the request order B then A, the created template pairs the row
named B with the level string computed from A's dtype: the row for B carries
numerical although B's own raw dtype maps to categorical.  The per-row level
is NOT determined by that same column's raw dtype. -/
theorem c2_template_counterexample :
    create_scale_level_template [("A", ⟨.float64, []⟩), ("B", ⟨.object, []⟩)] ["B", "A"]
      = some [⟨"B", "numerical", none⟩, ⟨"A", "categorical", none⟩]
    ∧ templateLevel (colDtype [("A", ⟨.float64, []⟩), ("B", ⟨.object, []⟩)] "B")
        ≠ "numerical" :=
  ⟨rfl, by decide⟩

/-- C2 amended: when the side-car file is absent, exactly one template is
written, with one row per requested column, and the run signals the blocking
SystemExit; the pre-filled levels are collected positionally in the frame's
column order, so whenever the requested columns are listed in frame order
(the hypothesis halign, true for the usual full-request case) each row's
level is the one inferred from that same column's raw dtype.  When the file
is present it is parsed and NOT rewritten, and the registry entries match
the file's rows one for one. -/
theorem c2_template_amended (df : Frame) (cols : List String)
    (rows : List TemplateRow) (hne : cols ≠ [])
    (hdf : (df.map Prod.fst).Nodup)
    (halign : (df.filter (fun e => decide (e.1 ∈ cols))).map Prod.fst = cols)
    (hrows : (rows.map TemplateRow.column).Nodup) :
    read_scale_levels none (some df) cols
        = (.error .systemExit,
            some (cols.map (fun c => ⟨c, templateLevel (colDtype df c), none⟩)))
    ∧ read_scale_levels (some rows) (some df) cols
        = (.ok (rows.map (fun r => (r.column, rowDetails r))), some rows) := by
  constructor
  · have hisEmpty : cols.isEmpty = false := by
      cases cols with
      | nil => exact absurd rfl hne
      | cons a l => rfl
    set fl := df.filter (fun e => decide (e.1 ∈ cols)) with hfl
    have hlen : (fl.map (fun e => templateLevel e.2.dtype)).length = cols.length := by
      rw [List.length_map, ← halign, List.length_map]
    have key : List.zipWith (fun n lvl => (⟨n, lvl, none⟩ : TemplateRow)) cols
        (fl.map (fun e => templateLevel e.2.dtype))
      = cols.map (fun c => ⟨c, templateLevel (colDtype df c), none⟩) := by
      rw [← halign]
      rw [zipWith_map_same Prod.fst (fun e : String × Column => templateLevel e.2.dtype)
        (fun n lvl => (⟨n, lvl, none⟩ : TemplateRow)) fl]
      rw [List.map_map]
      apply List.map_congr_left
      intro e he
      rw [hfl] at he
      have hedf : e ∈ df := List.mem_of_mem_filter he
      have hl : lookupCol df e.1 = some e.2 := lookup_of_mem_nodup df e hdf hedf
      simp [colDtype, hl]
    have hcreate : create_scale_level_template df cols
        = some (cols.map (fun c => ⟨c, templateLevel (colDtype df c), none⟩)) := by
      simp only [create_scale_level_template, hisEmpty, Bool.false_eq_true, if_false]
      rw [← hfl, if_pos hlen, key]
    simp [read_scale_levels, hcreate]
  · have hparse : parseScaleLevels rows = rows.map (fun r => (r.column, rowDetails r)) := by
      have h := parse_foldl_nodup rows [] hrows (by simp)
      simpa [parseScaleLevels] using h
    simp [read_scale_levels, hparse]

/-- C2 witness: frame A (float), B (object), requested in frame order, and a
filled two-row lookup file. -/
theorem c2_witness :
    ((["A", "B"] : List String) ≠ [])
    ∧ ((([("A", ⟨.float64, []⟩), ("B", ⟨.object, []⟩)] : Frame).map Prod.fst).Nodup)
    ∧ ((([("A", ⟨.float64, []⟩), ("B", ⟨.object, []⟩)] : Frame).filter
        (fun e => decide (e.1 ∈ (["A", "B"] : List String)))).map Prod.fst = ["A", "B"])
    ∧ ((([⟨"A", "numerical", none⟩, ⟨"B", "ordinal", some "x y"⟩] : List TemplateRow).map
        TemplateRow.column).Nodup)
    ∧ (read_scale_levels none (some [("A", ⟨.float64, []⟩), ("B", ⟨.object, []⟩)]) ["A", "B"]
        = (.error .systemExit, some (["A", "B"].map (fun c =>
            ⟨c, templateLevel (colDtype [("A", ⟨.float64, []⟩), ("B", ⟨.object, []⟩)] c),
              none⟩)))
      ∧ read_scale_levels (some [⟨"A", "numerical", none⟩, ⟨"B", "ordinal", some "x y"⟩])
          (some [("A", ⟨.float64, []⟩), ("B", ⟨.object, []⟩)]) ["A", "B"]
        = (.ok (([⟨"A", "numerical", none⟩, ⟨"B", "ordinal", some "x y"⟩] : List TemplateRow).map
            (fun r => (r.column, rowDetails r))),
           some [⟨"A", "numerical", none⟩, ⟨"B", "ordinal", some "x y"⟩])) :=
  ⟨by decide, by decide, by decide, by decide,
    c2_template_amended [("A", ⟨.float64, []⟩), ("B", ⟨.object, []⟩)] ["A", "B"]
      [⟨"A", "numerical", none⟩, ⟨"B", "ordinal", some "x y"⟩]
      (by decide) (by decide) (by decide) (by decide)⟩

theorem getLast?_eq_lastOf : ∀ l : List (String × Rat), l.getLast? = lastOf l
  | [] => rfl
  | [_] => rfl
  | x :: y :: ys => by
    rw [List.getLast?_cons_cons]
    exact getLast?_eq_lastOf (y :: ys)

theorem mem_insertAsc (x a : String × Rat) :
    ∀ l, a ∈ insertAsc x l ↔ a = x ∨ a ∈ l
  | [] => by simp [insertAsc]
  | y :: ys => by
    by_cases hc : y.2 ≤ x.2
    · simp only [insertAsc, if_pos hc, List.mem_cons, mem_insertAsc x a ys]
      tauto
    · simp only [insertAsc, if_neg hc, List.mem_cons]

theorem insertAsc_ne_nil (x : String × Rat) : ∀ l, insertAsc x l ≠ []
  | [] => by simp [insertAsc]
  | y :: ys => by
    by_cases hc : y.2 ≤ x.2 <;> simp [insertAsc, hc]

theorem pairwise_insertAsc (x : String × Rat) :
    ∀ l, List.Pairwise (fun a b : String × Rat => a.2 ≤ b.2) l →
      List.Pairwise (fun a b : String × Rat => a.2 ≤ b.2) (insertAsc x l)
  | [], _ => by simp [insertAsc]
  | y :: ys, h => by
    rcases List.pairwise_cons.mp h with ⟨hy, hys⟩
    by_cases hc : y.2 ≤ x.2
    · simp only [insertAsc, if_pos hc]
      refine List.pairwise_cons.mpr ⟨?_, pairwise_insertAsc x ys hys⟩
      intro b hb
      rcases (mem_insertAsc x b ys).mp hb with hb | hb
      · exact hb ▸ hc
      · exact hy b hb
    · simp only [insertAsc, if_neg hc]
      refine List.pairwise_cons.mpr ⟨?_, h⟩
      intro b hb
      rcases List.mem_cons.mp hb with hb | hb
      · subst hb
        exact le_of_lt (lt_of_not_le hc)
      · exact le_trans (le_of_lt (lt_of_not_le hc)) (hy b hb)

theorem lastOf_cons_ex :
    ∀ (a : String × Rat) (l : List (String × Rat)), ∃ m, lastOf (a :: l) = some m
  | a, [] => ⟨a, rfl⟩
  | _, b :: bs => by
    obtain ⟨m, hm⟩ := lastOf_cons_ex b bs
    exact ⟨m, hm⟩

theorem le_lastOf :
    ∀ (l : List (String × Rat)) (a m : String × Rat),
      List.Pairwise (fun u v : String × Rat => u.2 ≤ v.2) (a :: l) →
      lastOf (a :: l) = some m → a.2 ≤ m.2
  | [], a, m, _, hm => by
    have : a = m := by simpa [lastOf] using hm
    exact this ▸ le_refl a.2
  | b :: bs, a, m, hp, hm => by
    have hab : a.2 ≤ b.2 := (List.pairwise_cons.mp hp).1 b (List.mem_cons_self b bs)
    have htail := (List.pairwise_cons.mp hp).2
    exact le_trans hab (le_lastOf bs b m htail hm)

theorem lastOf_insertAsc (x : String × Rat) :
    ∀ l, List.Pairwise (fun u v : String × Rat => u.2 ≤ v.2) l →
      lastOf (insertAsc x l) = combineMax (lastOf l) (some x)
  | [], _ => rfl
  | y :: ys, hp => by
    rcases List.pairwise_cons.mp hp with ⟨hy, hys⟩
    by_cases hc : y.2 ≤ x.2
    · simp only [insertAsc, if_pos hc]
      cases ys with
      | nil =>
        simp [insertAsc, lastOf, combineMax, hc]
      | cons z zs =>
        have hne := insertAsc_ne_nil x (z :: zs)
        have hstep : lastOf (y :: insertAsc x (z :: zs))
            = lastOf (insertAsc x (z :: zs)) := by
          cases hi : insertAsc x (z :: zs) with
          | nil => exact absurd hi hne
          | cons w ws => rfl
        rw [hstep, lastOf_insertAsc x (z :: zs) hys]
        rfl
    · simp only [insertAsc, if_neg hc]
      obtain ⟨m, hm⟩ := lastOf_cons_ex y ys
      have hym : y.2 ≤ m.2 := le_lastOf ys y m hp hm
      have hmx : ¬ (m.2 ≤ x.2) := fun h => hc (le_trans hym h)
      have hred : lastOf (x :: y :: ys) = lastOf (y :: ys) := rfl
      rw [hred, hm, combineMax]
      rw [if_neg hmx]

theorem combineMax_assoc (a b c : Option (String × Rat)) :
    combineMax (combineMax a b) c = combineMax a (combineMax b c) := by
  cases a <;> cases b <;> cases c
  all_goals simp only [combineMax]
  all_goals split_ifs <;> first | rfl | (exfalso; linarith)

theorem lastOf_foldl :
    ∀ (l : List (String × Rat)) (acc : List (String × Rat)),
      List.Pairwise (fun u v : String × Rat => u.2 ≤ v.2) acc →
      lastOf (l.foldl (fun a x => insertAsc x a) acc)
        = combineMax (lastOf acc) (lastMax l)
  | [], acc, _ => by
    cases h : lastOf acc <;> simp [lastMax, combineMax, h]
  | x :: xs, acc, hp => by
    have hp2 := pairwise_insertAsc x acc hp
    have ih := lastOf_foldl xs (insertAsc x acc) hp2
    have hins := lastOf_insertAsc x acc hp
    calc lastOf (((x :: xs).foldl (fun a y => insertAsc y a) acc))
        = lastOf (xs.foldl (fun a y => insertAsc y a) (insertAsc x acc)) := rfl
      _ = combineMax (lastOf (insertAsc x acc)) (lastMax xs) := ih
      _ = combineMax (combineMax (lastOf acc) (some x)) (lastMax xs) := by rw [hins]
      _ = combineMax (lastOf acc) (combineMax (some x) (lastMax xs)) :=
          combineMax_assoc _ _ _
      _ = combineMax (lastOf acc) (lastMax (x :: xs)) := by
          cases h : lastMax xs <;> simp [lastMax, combineMax, h]

theorem bestCv_eq_lastMax (l : List (String × Rat)) :
    bestCvEstimator l = lastMax l := by
  rw [bestCvEstimator, getLast?_eq_lastOf, sortAsc]
  have h := lastOf_foldl l [] (by simp)
  simpa [combineMax, lastOf] using h

theorem lastMax_spec :
    ∀ l : List (String × Rat), l ≠ [] →
      ∃ e l1 l2, lastMax l = some e ∧ l = l1 ++ e :: l2
        ∧ (∀ a ∈ l1, a.2 ≤ e.2) ∧ (∀ a ∈ l2, a.2 < e.2)
  | [], h => absurd rfl h
  | [x], _ => ⟨x, [], [], by simp [lastMax], by simp, by simp, by simp⟩
  | x :: y :: ys, _ => by
    obtain ⟨m, l1, l2, hm, hdec, h1, h2⟩ := lastMax_spec (y :: ys) (by simp)
    have heq : lastMax (x :: y :: ys)
        = some (match lastMax (y :: ys) with
            | none => x
            | some m => if x.2 ≤ m.2 then m else x) := rfl
    by_cases hc : x.2 ≤ m.2
    · refine ⟨m, x :: l1, l2, ?_, ?_, ?_, h2⟩
      · rw [heq, hm]
        show some (if x.2 ≤ m.2 then m else x) = some m
        rw [if_pos hc]
      · simp [hdec]
      · intro a ha
        rcases List.mem_cons.mp ha with ha | ha
        · subst ha
          exact hc
        · exact h1 a ha
    · have hmx : m.2 < x.2 := lt_of_not_le hc
      refine ⟨x, [], y :: ys, ?_, by simp, by simp, ?_⟩
      · rw [heq, hm]
        show some (if x.2 ≤ m.2 then m else x) = some x
        rw [if_neg hc]
      · intro a ha
        rw [hdec] at ha
        rcases List.mem_append.mp ha with ha | ha
        · exact lt_of_le_of_lt (h1 a ha) hmx
        · rcases List.mem_cons.mp ha with ha | ha
          · subst ha
            exact hmx
          · exact lt_trans (h2 a ha) hmx

/-- C9 counterexample: two estimators A then B with identical mean AUC; the
pick is B, the LAST of the tied pair, not A: first occurrence does not win,
because pandas realizes the descending order by reversing the stable
ascending argsort. -/
theorem c9_tie_counterexample :
    gridSearchBest ["A", "B"] (fun _ => (1 : Rat)) = some ("B", (1 : Rat))
    ∧ gridSearchBest ["A", "B"] (fun _ => (1 : Rat)) ≠ some ("A", (1 : Rat)) := by
  constructor
  · decide
  · decide

/-- C9 amended: for a nonempty estimator list the grid-search pick attains
the maximal initial-CV mean AUC, and among ties the LAST estimator in the
caller's list wins: every earlier row has AUC at most the pick's, every
later row strictly less. -/
theorem c9_best_estimator_amended (est : List String) (auc : String → Rat)
    (hne : est ≠ []) :
    ∃ e l1 l2, gridSearchBest est auc = some e
      ∧ est.map (fun n => (n, auc n)) = l1 ++ e :: l2
      ∧ (∀ a ∈ l1, a.2 ≤ e.2) ∧ (∀ a ∈ l2, a.2 < e.2) := by
  have hmap : est.map (fun n => (n, auc n)) ≠ [] := by
    intro h
    exact hne (List.map_eq_nil_iff.mp h)
  obtain ⟨e, l1, l2, hm, hdec, h1, h2⟩ :=
    lastMax_spec (est.map fun n => (n, auc n)) hmap
  refine ⟨e, l1, l2, ?_, hdec, h1, h2⟩
  rw [gridSearchBest, bestCv_eq_lastMax]
  exact hm

/-- C9 witness: two estimators with distinct AUCs. -/
theorem c9_witness :
    ((["A", "B"] : List String) ≠ [])
    ∧ ∃ e l1 l2,
        gridSearchBest ["A", "B"] (fun n => if n = "A" then (1 : Rat) else 2)
          = some e
        ∧ ["A", "B"].map (fun n => (n, if n = "A" then (1 : Rat) else 2))
          = l1 ++ e :: l2
        ∧ (∀ a ∈ l1, a.2 ≤ e.2) ∧ (∀ a ∈ l2, a.2 < e.2) :=
  ⟨by decide,
    c9_best_estimator_amended ["A", "B"]
      (fun n => if n = "A" then (1 : Rat) else 2) (by decide)⟩

theorem mapE_all_ok {P : Value → Prop} (f : Value → Except Err Value)
    (hf : ∀ v w, f v = .ok w → P w) :
    ∀ vs ws, mapE f vs = .ok ws → ∀ w ∈ ws, P w
  | [], ws, h, w, hw => by
    simp only [mapE] at h
    injection h with h2
    subst h2
    exact absurd hw (List.not_mem_nil w)
  | v :: vs, ws, h, w, hw => by
    simp only [mapE] at h
    cases hv : f v with
    | error e =>
      rw [hv] at h
      exact absurd h (by simp)
    | ok w0 =>
      rw [hv] at h
      cases hrest : mapE f vs with
      | error e =>
        rw [hrest] at h
        exact absurd h (by simp)
      | ok ws0 =>
        rw [hrest] at h
        injection h with h2
        subst h2
        rcases List.mem_cons.mp hw with hw | hw
        · subst hw
          exact hf v w hv
        · exact mapE_all_ok f hf vs ws0 hrest w hw

theorem mapE_id (f : Value → Except Err Value) :
    ∀ vs, (∀ v ∈ vs, f v = .ok v) → mapE f vs = .ok vs
  | [], _ => rfl
  | v :: vs, h => by
    have hv : f v = .ok v := h v (List.mem_cons_self v vs)
    have hrest := mapE_id f vs (fun x hx => h x (List.mem_cons_of_mem v hx))
    simp only [mapE, hv, hrest]

theorem valueToFloat_shape (v w : Value) (h : valueToFloat v = .ok w) :
    ∃ q, w = Value.float q := by
  cases v with
  | int i =>
    simp only [valueToFloat] at h
    cases h
    exact ⟨_, rfl⟩
  | float q =>
    simp only [valueToFloat] at h
    cases h
    exact ⟨q, rfl⟩
  | bool b =>
    simp only [valueToFloat] at h
    cases h
    exact ⟨_, rfl⟩
  | str s =>
    simp only [valueToFloat] at h
    cases hs : s.toInt? with
    | none =>
      rw [hs] at h
      exact absurd h (by simp)
    | some i =>
      rw [hs] at h
      cases h
      exact ⟨_, rfl⟩

theorem valueToInt64_shape (v w : Value) (h : valueToInt64 v = .ok w) :
    ∃ i, w = Value.int i := by
  cases v with
  | int i =>
    simp only [valueToInt64] at h
    cases h
    exact ⟨i, rfl⟩
  | float q =>
    simp only [valueToInt64] at h
    cases h
    exact ⟨_, rfl⟩
  | bool b =>
    simp only [valueToInt64] at h
    cases h
    exact ⟨_, rfl⟩
  | str s =>
    simp only [valueToInt64] at h
    cases hs : s.toInt? with
    | none =>
      rw [hs] at h
      exact absurd h (by simp)
    | some i =>
      rw [hs] at h
      cases h
      exact ⟨i, rfl⟩

theorem pyIndex_shape (lo : Option (List String)) (v w : Value)
    (h : pyIndex lo v = .ok w) : ∃ i, w = Value.int i := by
  cases lo with
  | none => exact absurd h (by simp [pyIndex])
  | some l =>
    cases v with
    | str s =>
      simp only [pyIndex] at h
      cases hf : l.findIdx? (fun x => x == s) with
      | none =>
        rw [hf] at h
        exact absurd h (by simp)
      | some i =>
        rw [hf] at h
        cases h
        exact ⟨i, rfl⟩
    | int i => exact absurd h (by simp [pyIndex])
    | float q => exact absurd h (by simp [pyIndex])
    | bool b => exact absurd h (by simp [pyIndex])

theorem astypeFloat_ok (c c2 : Column) (h : astypeFloat c = .ok c2) :
    c2.dtype = .float64 ∧ ∀ w ∈ c2.values, ∃ q, w = Value.float q := by
  unfold astypeFloat at h
  cases hm : mapE valueToFloat c.values with
  | error e =>
    rw [hm] at h
    exact absurd h (by simp)
  | ok ws =>
    rw [hm] at h
    cases h
    exact ⟨rfl, mapE_all_ok valueToFloat valueToFloat_shape c.values ws hm⟩

theorem astypeFloat_idem (c c2 : Column) (h : astypeFloat c = .ok c2) :
    astypeFloat c2 = .ok c2 := by
  obtain ⟨hd, hv⟩ := astypeFloat_ok c c2 h
  have hid : mapE valueToFloat c2.values = .ok c2.values :=
    mapE_id valueToFloat c2.values (fun v hvm => by
      obtain ⟨q, rfl⟩ := hv v hvm
      rfl)
  unfold astypeFloat
  rw [hid]
  cases c2 with
  | mk dt vals =>
    simp only [Column.dtype] at hd
    rw [hd]

theorem astypeInt64_ok (c c2 : Column) (h : astypeInt64 c = .ok c2) :
    c2.dtype = .int64 ∧ ∀ w ∈ c2.values, ∃ i, w = Value.int i := by
  unfold astypeInt64 at h
  cases hm : mapE valueToInt64 c.values with
  | error e =>
    rw [hm] at h
    exact absurd h (by simp)
  | ok ws =>
    rw [hm] at h
    cases h
    exact ⟨rfl, mapE_all_ok valueToInt64 valueToInt64_shape c.values ws hm⟩

theorem astypeInt64_idem (c c2 : Column) (h : astypeInt64 c = .ok c2) :
    astypeInt64 c2 = .ok c2 := by
  obtain ⟨hd, hv⟩ := astypeInt64_ok c c2 h
  have hid : mapE valueToInt64 c2.values = .ok c2.values :=
    mapE_id valueToInt64 c2.values (fun v hvm => by
      obtain ⟨i, rfl⟩ := hv v hvm
      rfl)
  unfold astypeInt64
  rw [hid]
  cases c2 with
  | mk dt vals =>
    simp only [Column.dtype] at hd
    rw [hd]

theorem coerceColumn_idem (d : ScaleDetails) (c0 c : Column)
    (hc : coerceColumn d c0 = .ok c) : coerceColumn d c = .ok c := by
  unfold coerceColumn at hc ⊢
  by_cases h1 : d.scale_level = "numerical"
  · rw [if_pos h1] at hc ⊢
    exact astypeFloat_idem c0 c hc
  · rw [if_neg h1] at hc ⊢
    by_cases h2 : d.scale_level = "ordinal"
    · rw [if_pos h2] at hc ⊢
      by_cases h3 : isNumericDtype c0.dtype = true
      · rw [if_pos h3] at hc
        have hdt := (astypeInt64_ok c0 c hc).1
        have hnum : isNumericDtype c.dtype = true := by rw [hdt]; rfl
        rw [if_pos hnum]
        exact astypeInt64_idem c0 c hc
      · rw [if_neg h3] at hc
        cases hm : mapE (pyIndex d.level_order) c0.values with
        | error e =>
          rw [hm] at hc
          exact absurd hc (by simp)
        | ok rs =>
          rw [hm] at hc
          have hdt := (astypeInt64_ok ⟨c0.dtype, rs⟩ c hc).1
          have hnum : isNumericDtype c.dtype = true := by rw [hdt]; rfl
          rw [if_pos hnum]
          exact astypeInt64_idem ⟨c0.dtype, rs⟩ c hc
    · rw [if_neg h2] at hc ⊢
      by_cases h3 : d.scale_level = "categorical"
      · rw [if_pos h3] at hc ⊢
        have hceq : c = ⟨.category, c0.values⟩ := by
          injection hc with h4
          exact h4.symm
        rw [hceq]
      · rw [if_neg h3] at hc ⊢

theorem setCol_map_fst (df : Frame) (k : String) (c : Column) :
    (setCol df k c).map Prod.fst = df.map Prod.fst := by
  unfold setCol
  rw [List.map_map]
  apply List.map_congr_left
  intro e _
  by_cases he : e.1 = k <;> simp [he]

theorem lookup_setCol_self :
    ∀ (df : Frame) (k : String) (c c0 : Column), lookupCol df k = some c0 →
      lookupCol (setCol df k c) k = some c
  | [], k, c, c0, h => by simp [lookupCol] at h
  | e :: es, k, c, c0, h => by
    by_cases he : e.1 = k
    · simp [setCol, lookupCol, he]
    · have hb : (e.1 == k) = false := by simp [he]
      have htail : lookupCol es k = some c0 := by
        simp only [lookupCol, List.find?_cons, hb] at h
        exact h
      have ih := lookup_setCol_self es k c c0 htail
      simp only [setCol, List.map_cons, if_neg he, lookupCol, List.find?_cons, hb] at ih ⊢
      exact ih

theorem lookup_setCol_ne :
    ∀ (df : Frame) (k j : String) (c : Column), j ≠ k →
      lookupCol (setCol df k c) j = lookupCol df j
  | [], _, _, _, _ => rfl
  | e :: es, k, j, c, hne => by
    have ih := lookup_setCol_ne es k j c hne
    by_cases he : e.1 = k
    · have hb1 : (k == j) = false := by
        simp only [beq_eq_false_iff_ne]
        exact fun h => hne h.symm
      have hb2 : (e.1 == j) = false := by
        simp only [beq_eq_false_iff_ne]
        rw [he]
        exact fun h => hne h.symm
      simp only [setCol, List.map_cons, if_pos he, lookupCol, List.find?_cons, hb1, hb2] at ih ⊢
      exact ih
    · simp only [setCol, List.map_cons, if_neg he, lookupCol, List.find?_cons] at ih ⊢
      cases hb : (e.1 == j) with
      | true => rfl
      | false => exact ih

theorem setCol_not_mem :
    ∀ (df : Frame) (k : String) (c : Column), k ∉ df.map Prod.fst →
      setCol df k c = df
  | [], _, _, _ => rfl
  | e :: es, k, c, h => by
    have hek : e.1 ≠ k := by
      intro heq
      exact h (by rw [← heq]; exact List.mem_cons_self e.1 (es.map Prod.fst))
    have ih := setCol_not_mem es k c (fun hm => h (List.mem_cons_of_mem e.1 hm))
    simp only [setCol, List.map_cons, if_neg hek] at ih ⊢
    rw [ih]

theorem setCol_lookup_eq :
    ∀ (df : Frame) (k : String) (c : Column), (df.map Prod.fst).Nodup →
      lookupCol df k = some c → setCol df k c = df
  | [], k, c, _, h => by simp [lookupCol] at h
  | e :: es, k, c, hnd, h => by
    by_cases he : e.1 = k
    · have hb : (e.1 == k) = true := by simp [he]
      have hcval : c = e.2 := by
        simp only [lookupCol, List.find?_cons, hb] at h
        injection h with h2
        exact h2.symm
      have hknotin : k ∉ es.map Prod.fst := by
        rw [← he]
        exact (List.nodup_cons.mp hnd).1
      have htail := setCol_not_mem es k c hknotin
      simp only [setCol, List.map_cons, if_pos he] at htail ⊢
      rw [htail, hcval, ← he]
    · have hb : (e.1 == k) = false := by simp [he]
      have htail : lookupCol es k = some c := by
        simp only [lookupCol, List.find?_cons, hb] at h
        exact h
      have ih := setCol_lookup_eq es k c (List.nodup_cons.mp hnd).2 htail
      simp only [setCol, List.map_cons, if_neg he] at ih ⊢
      rw [ih]

theorem applyEntry_map_fst (f t : List String) (df : Frame)
    (e : String × ScaleDetails) (d : Frame) (h : applyEntry f t df e = .ok d) :
    d.map Prod.fst = df.map Prod.fst := by
  simp only [applyEntry] at h
  by_cases hin : e.1 ∈ t ++ f
  · rw [if_pos hin] at h
    cases hl : lookupCol df e.1 with
    | none =>
      simp [hl] at h
    | some c =>
      simp only [hl] at h
      cases hc : coerceColumn e.2 c with
      | error err =>
        simp [hc] at h
      | ok c2 =>
        simp only [hc] at h
        injection h with h2
        rw [← h2]
        exact setCol_map_fst df e.1 c2
  · rw [if_neg hin] at h
    injection h with h2
    rw [← h2]

theorem apply_map_fst (f t : List String) :
    ∀ (reg : Registry) (df d : Frame),
      applyScaleLevels f t df reg = .ok d → d.map Prod.fst = df.map Prod.fst
  | [], df, d, h => by
    injection h with h2
    rw [← h2]
  | e :: rest, df, d, h => by
    simp only [applyScaleLevels] at h
    cases he : applyEntry f t df e with
    | error err =>
      rw [he] at h
      exact absurd h (by simp)
    | ok d1 =>
      rw [he] at h
      have h1 := applyEntry_map_fst f t df e d1 he
      have h2 := apply_map_fst f t rest d1 d h
      rw [h2, h1]

theorem applyEntry_lookup_ne (f t : List String) (df : Frame)
    (e : String × ScaleDetails) (d : Frame) (k : String) (hne : e.1 ≠ k)
    (h : applyEntry f t df e = .ok d) : lookupCol d k = lookupCol df k := by
  simp only [applyEntry] at h
  by_cases hin : e.1 ∈ t ++ f
  · rw [if_pos hin] at h
    cases hl : lookupCol df e.1 with
    | none =>
      simp [hl] at h
    | some c =>
      simp only [hl] at h
      cases hc : coerceColumn e.2 c with
      | error err =>
        simp [hc] at h
      | ok c2 =>
        simp only [hc] at h
        injection h with h2
        rw [← h2]
        exact lookup_setCol_ne df e.1 k c2 (fun hj => hne hj.symm)
  · rw [if_neg hin] at h
    injection h with h2
    rw [← h2]

theorem apply_lookup_not_mem (f t : List String) :
    ∀ (reg : Registry) (df d : Frame) (k : String), k ∉ reg.map Prod.fst →
      applyScaleLevels f t df reg = .ok d → lookupCol d k = lookupCol df k
  | [], df, d, k, _, h => by
    injection h with h2
    rw [← h2]
  | e :: rest, df, d, k, hk, h => by
    simp only [applyScaleLevels] at h
    cases he : applyEntry f t df e with
    | error err =>
      rw [he] at h
      exact absurd h (by simp)
    | ok d1 =>
      rw [he] at h
      have hek : e.1 ≠ k := by
        intro heq
        exact hk (by rw [← heq]; exact List.mem_cons_self e.1 (rest.map Prod.fst))
      have h1 := applyEntry_lookup_ne f t df e d1 k hek he
      have h2 := apply_lookup_not_mem f t rest d1 d k
        (fun hm => hk (List.mem_cons_of_mem e.1 hm)) h
      rw [h2, h1]

/-- C10: applying scale levels is idempotent.  For a registry with unique
column keys (any registry parsed from the lookup file is a Python dict, so
keys are unique) and a frame with unique column names, if one application of
the registry's coercion rules succeeds and produces the typed frame, then
applying the same rules to the typed frame succeeds and returns it
unchanged: equal values and equal column dtypes. -/
theorem c10_apply_idempotent :
    ∀ (reg : Registry) (f t : List String) (df df2 : Frame),
      (reg.map Prod.fst).Nodup → (df.map Prod.fst).Nodup →
      applyScaleLevels f t df reg = .ok df2 →
      applyScaleLevels f t df2 reg = .ok df2
  | [], f, t, df, df2, _, _, h => by
    injection h with h2
    rw [← h2]
    rfl
  | (k, d) :: rest, f, t, df, df2, hreg, hdf, h => by
    have hreg1 : k ∉ rest.map Prod.fst := (List.nodup_cons.mp hreg).1
    have hreg2 := (List.nodup_cons.mp hreg).2
    simp only [applyScaleLevels] at h ⊢
    cases he : applyEntry f t df (k, d) with
    | error err =>
      rw [he] at h
      exact absurd h (by simp)
    | ok d1 =>
      rw [he] at h
      have hd1cols : d1.map Prod.fst = df.map Prod.fst :=
        applyEntry_map_fst f t df (k, d) d1 he
      have hd1nd : (d1.map Prod.fst).Nodup := by rw [hd1cols]; exact hdf
      have hdf2cols : df2.map Prod.fst = d1.map Prod.fst :=
        apply_map_fst f t rest d1 df2 h
      have hdf2nd : (df2.map Prod.fst).Nodup := by rw [hdf2cols]; exact hd1nd
      have ih := c10_apply_idempotent rest f t d1 df2 hreg2 hd1nd h
      have hentry2 : applyEntry f t df2 (k, d) = .ok df2 := by
        simp only [applyEntry] at he ⊢
        by_cases hin : k ∈ t ++ f
        · rw [if_pos hin] at he ⊢
          cases hl : lookupCol df k with
          | none =>
            simp [hl] at he
          | some c0 =>
            simp only [hl] at he
            cases hcc : coerceColumn d c0 with
            | error err =>
              simp [hcc] at he
            | ok c =>
              simp only [hcc] at he
              injection he with he2
              have hlk1 : lookupCol d1 k = some c := by
                rw [← he2]
                exact lookup_setCol_self df k c c0 hl
              have hlk2 : lookupCol df2 k = some c := by
                rw [apply_lookup_not_mem f t rest d1 df2 k hreg1 h]
                exact hlk1
              simp only [hlk2, coerceColumn_idem d c0 c hcc,
                setCol_lookup_eq df2 k c hdf2nd hlk2]
        · rw [if_neg hin]
      simp only [hentry2]
      exact ih

/-- C10 witness: a two-column frame (an ordinal string column and a
categorical one) with a matching two-entry registry; the second application
returns the typed frame unchanged. -/
theorem c10_witness :
    ((([("a", ⟨"ordinal", some ["x", "y"]⟩), ("b", ⟨"categorical", none⟩)] :
        Registry).map Prod.fst).Nodup)
    ∧ ((([("a", ⟨.object, [Value.str "y"]⟩), ("b", ⟨.object, [Value.str "u"]⟩)] :
        Frame).map Prod.fst).Nodup)
    ∧ applyScaleLevels ["a", "b"] []
        [("a", ⟨.object, [Value.str "y"]⟩), ("b", ⟨.object, [Value.str "u"]⟩)]
        [("a", ⟨"ordinal", some ["x", "y"]⟩), ("b", ⟨"categorical", none⟩)]
      = .ok [("a", ⟨.int64, [Value.int 1]⟩), ("b", ⟨.category, [Value.str "u"]⟩)]
    ∧ applyScaleLevels ["a", "b"] []
        [("a", ⟨.int64, [Value.int 1]⟩), ("b", ⟨.category, [Value.str "u"]⟩)]
        [("a", ⟨"ordinal", some ["x", "y"]⟩), ("b", ⟨"categorical", none⟩)]
      = .ok [("a", ⟨.int64, [Value.int 1]⟩), ("b", ⟨.category, [Value.str "u"]⟩)] :=
  ⟨by decide, by decide, rfl,
    c10_apply_idempotent
      [("a", ⟨"ordinal", some ["x", "y"]⟩), ("b", ⟨"categorical", none⟩)]
      ["a", "b"] []
      [("a", ⟨.object, [Value.str "y"]⟩), ("b", ⟨.object, [Value.str "u"]⟩)]
      [("a", ⟨.int64, [Value.int 1]⟩), ("b", ⟨.category, [Value.str "u"]⟩)]
      (by decide) (by decide) rfl⟩

end Racoons
